import Mathlib

/-!
# Verification of the muniverse Python binding (`bindings/python/muniverse/env.py`)

This development shallowly embeds the `Env` facade of the muniverse Python
binding.  The facade drives a backend through a `Handle` offering
`checked_call(name, args)` and `close()`.  The `Handle` implementation is not
part of the checked sources, so it is modelled abstractly as an oracle
(`Backend`) mapping a call name and argument mapping to an outcome (a success
result mapping, a backend-reported error, or a transport failure), and every
externally visible effect of a facade operation (calls issued to the handle,
handle closes) is recorded in an explicit event trace.

The wire codec of the protocol layer is likewise absent from the checked
sources and is modelled from the spec: a length-delimited, self-describing
encoding of a call name plus a flat key-value payload of JSON-representable
values.
-/

namespace Muniverse

/-- A JSON-representable value, as stored in call argument mappings and
result mappings.  Numbers are modelled as integers. -/
inductive JVal where
  | str (s : String)
  | num (i : Int)
  | bool (b : Bool)
  | null
  | arr (items : List JVal)
  | obj (fields : List (String × JVal))
deriving Repr

/-- An argument (or result) mapping: string keys to JSON-representable
values, in insertion order, mirroring a Python `dict`. -/
abbrev Args := List (String × JVal)

/-! ## Protocol codec

Modelled from the spec: the Protocol Codec (its implementation is not among
the checked sources; only the Python facade is).  Per the spec, a Call is a
structured message with two logical fields — a name and a flat key-value
payload — serialized into a length-delimited, self-describing form.  Here
natural numbers are framed as base-10 digits terminated by a colon, strings
are length-prefixed, values carry a one-character tag, and the whole message
body is length-framed. -/

/-- The character encoding a single decimal digit. -/
def dChar (d : Nat) : Char := Char.ofNat (48 + d)

/-- Decode a character back to a decimal digit, if it is one. -/
def charDigit (c : Char) : Option Nat :=
  if 48 ≤ c.toNat ∧ c.toNat ≤ 57 then some (c.toNat - 48) else none

/-- Encode a natural number: its base-10 digits (least significant first)
followed by a colon terminator. -/
def encNat (n : Nat) : List Char := (Nat.digits 10 n).map dChar ++ [':']

/-- Worker for `decNat`: consume digit characters until the colon. -/
def decNatGo : List Char → List Nat → Option (Nat × List Char)
  | [], _ => none
  | c :: cs, acc =>
    if c = ':' then some (Nat.ofDigits 10 acc, cs)
    else
      match charDigit c with
      | some d => decNatGo cs (acc ++ [d])
      | none => none

/-- Decode a colon-terminated natural number from the front of a stream. -/
def decNat (cs : List Char) : Option (Nat × List Char) := decNatGo cs []

/-- Encode an integer: a sign character followed by its absolute value. -/
def encInt (i : Int) : List Char :=
  if i < 0 then '-' :: encNat i.natAbs else '+' :: encNat i.natAbs

/-- Decode a sign-prefixed integer from the front of a stream. -/
def decInt : List Char → Option (Int × List Char)
  | '-' :: cs =>
    match decNat cs with
    | some (n, r) => some (-(n : Int), r)
    | none => none
  | '+' :: cs =>
    match decNat cs with
    | some (n, r) => some ((n : Int), r)
    | none => none
  | _ => none

/-- Split off exactly `n` characters from the front of a stream. -/
def takeN : Nat → List Char → Option (List Char × List Char)
  | 0, cs => some ([], cs)
  | _ + 1, [] => none
  | n + 1, c :: cs =>
    match takeN n cs with
    | some (a, b) => some (c :: a, b)
    | none => none

/-- Encode a string: its length, then its characters verbatim. -/
def encStr (s : String) : List Char := encNat s.length ++ s.data

/-- Decode a length-prefixed string from the front of a stream. -/
def decStr (cs : List Char) : Option (String × List Char) :=
  match decNat cs with
  | some (n, r) =>
    match takeN n r with
    | some (chars, r') => some (String.mk chars, r')
    | none => none
  | none => none

mutual

/-- Encode a JSON value: a one-character tag followed by the payload;
arrays and objects carry their element count. -/
def encJVal : JVal → List Char
  | .str s => 's' :: encStr s
  | .num i => 'n' :: encInt i
  | .bool true => ['t']
  | .bool false => ['f']
  | .null => ['z']
  | .arr xs => 'a' :: (encNat xs.length ++ encJList xs)
  | .obj kvs => 'o' :: (encNat kvs.length ++ encJKVs kvs)

/-- Encode the elements of a JSON array, concatenated. -/
def encJList : List JVal → List Char
  | [] => []
  | v :: vs => encJVal v ++ encJList vs

/-- Encode the fields of a flat key-value payload, concatenated. -/
def encJKVs : List (String × JVal) → List Char
  | [] => []
  | (k, v) :: kvs => encStr k ++ encJVal v ++ encJKVs kvs

end

mutual

/-- Decode one JSON value, with a fuel bound on nesting work. -/
def decVal : Nat → List Char → Option (JVal × List Char)
  | 0, _ => none
  | fuel + 1, cs =>
    match cs with
    | 's' :: r =>
      match decStr r with
      | some (s, r') => some (.str s, r')
      | none => none
    | 'n' :: r =>
      match decInt r with
      | some (i, r') => some (.num i, r')
      | none => none
    | 't' :: r => some (.bool true, r)
    | 'f' :: r => some (.bool false, r)
    | 'z' :: r => some (.null, r)
    | 'a' :: r =>
      match decNat r with
      | some (n, r1) =>
        match decList fuel n r1 with
        | some (xs, r2) => some (.arr xs, r2)
        | none => none
      | none => none
    | 'o' :: r =>
      match decNat r with
      | some (n, r1) =>
        match decKVs fuel n r1 with
        | some (kvs, r2) => some (.obj kvs, r2)
        | none => none
      | none => none
    | _ => none
termination_by fuel _ => (fuel, 0)

/-- Decode exactly `n` consecutive JSON values. -/
def decList : Nat → Nat → List Char → Option (List JVal × List Char)
  | _, 0, cs => some ([], cs)
  | fuel, n + 1, cs =>
    match decVal fuel cs with
    | some (v, r) =>
      match decList fuel n r with
      | some (vs, r') => some (v :: vs, r')
      | none => none
    | none => none
termination_by fuel n _ => (fuel, n + 1)

/-- Decode exactly `n` consecutive key-value fields. -/
def decKVs : Nat → Nat → List Char → Option (Args × List Char)
  | _, 0, cs => some ([], cs)
  | fuel, n + 1, cs =>
    match decStr cs with
    | some (k, r) =>
      match decVal fuel r with
      | some (v, r1) =>
        match decKVs fuel n r1 with
        | some (kvs, r2) => some ((k, v) :: kvs, r2)
        | none => none
      | none => none
    | none => none
termination_by fuel n _ => (fuel, n + 1)

end

mutual

/-- Number of value nodes in a JSON value (a fuel bound for `decVal`). -/
def jsize : JVal → Nat
  | .arr xs => 1 + jsizeList xs
  | .obj kvs => 1 + jsizeKVs kvs
  | _ => 1

/-- Total `jsize` of a list of JSON values. -/
def jsizeList : List JVal → Nat
  | [] => 0
  | v :: vs => jsize v + jsizeList vs

/-- Total `jsize` of the values of a key-value payload. -/
def jsizeKVs : List (String × JVal) → Nat
  | [] => 0
  | (_, v) :: kvs => jsize v + jsizeKVs kvs

end

/-- One RPC call: a verb name plus a flat argument mapping. -/
structure Call where
  name : String
  args : Args
deriving Repr

/-- The enumerated RPC verbs of the protocol. -/
def verbs : List String :=
  ["NewEnv", "NewEnvContainer", "NewEnvChrome", "Reset", "CloseEnv"]

/-- Encode a Call: a length frame around the encoded name followed by the
field count and the encoded fields. -/
def encodeCall (c : Call) : List Char :=
  let body := encStr c.name ++ encNat c.args.length ++ encJKVs c.args
  encNat body.length ++ body

/-- Decode an encoded Call, requiring the frame to be fully consumed. -/
def decodeCall (cs : List Char) : Option Call :=
  match decNat cs with
  | some (blen, r1) =>
    match takeN blen r1 with
    | some (body, rest) =>
      match decStr body with
      | some (name, r2) =>
        match decNat r2 with
        | some (n, r3) =>
          match decKVs r3.length n r3 with
          | some (kvs, r4) =>
            if r4.isEmpty && rest.isEmpty then some ⟨name, kvs⟩ else none
          | none => none
        | none => none
      | none => none
    | none => none
  | none => none

/-! ## The `Env` facade (`env.py`)

`Env.__init__`, `Env.reset` and `Env.close` are embedded as pure functions.
The `Handle` the facade drives is abstracted by a `Backend` oracle giving
the outcome of each `checked_call`, and the facade's externally visible
effects are collected in an event trace. -/

/-- Outcome of one `Handle.checked_call`: a success result mapping, a
backend-reported error (`MuniverseError`), or a transport-level failure. -/
inductive CallOutcome where
  | ok (result : Args)
  | backendErr (msg : String)
  | transportErr (msg : String)
deriving Repr

/-- The backend as seen through `Handle.checked_call`: a map from call name
and arguments to the call's outcome. -/
abbrev Backend := String → Args → CallOutcome

/-- Externally visible effects of a facade operation on its handle. -/
inductive Event where
  | call (name : String) (args : Args)
  | handleClose
deriving Repr

/-- The error raised by a facade operation: a `ValueError` from
configuration validation, a backend-reported `MuniverseError`, a transport
failure, or a local `KeyError` from a result-field lookup. -/
inductive EnvError where
  | valueError (msg : String)
  | backendError (msg : String)
  | transportError (msg : String)
  | keyError (key : String)
deriving Repr

/-- The state of a successfully constructed `Env`: its backend-assigned
UID (the handle it owns is open). -/
structure EnvState where
  uid : JVal
deriving Repr

/-- A Python value that may be `None`, as inserted into a `dict`:
`None` becomes JSON null. -/
def optVal (o : Option JVal) : JVal := o.getD .null

/-- The create call `Env.__init__` builds after validation: `call_name` and
`call_obj`, starting from `NewEnv` with `{'Spec': spec}` and switching on
`container`, then `chrome_host` (a `None` `game_host` would be inserted as
JSON null, mirroring the Python `dict`). -/
def initCall (spec : JVal) (container chrome_host game_host : Option JVal) :
    String × Args :=
  match container with
  | some c => ("NewEnvContainer", [("Spec", spec), ("Container", c)])
  | none =>
    match chrome_host with
    | some h =>
      ("NewEnvChrome",
        [("Spec", spec), ("Host", h), ("GameHost", optVal game_host)])
    | none => ("NewEnv", [("Spec", spec)])

/-- The `try`/`finally` block of `Env.__init__`: issue the create call,
extract `UID` from its result, and on every failure path — the call raising
or the `'UID'` lookup raising `KeyError` — close the handle before the
error propagates (`self.handle` is only assigned after success, and the
`finally` block closes the handle exactly when `self.handle` is `None`). -/
def createAttempt (spec : JVal) (container chrome_host game_host : Option JVal)
    (backend : Backend) : Except EnvError EnvState × List Event :=
  let na := initCall spec container chrome_host game_host
  match backend na.1 na.2 with
  | .ok result =>
    match result.lookup "UID" with
    | some uid => (.ok ⟨uid⟩, [.call na.1 na.2])
    | none => (.error (.keyError "UID"), [.call na.1 na.2, .handleClose])
  | .backendErr m =>
    (.error (.backendError m), [.call na.1 na.2, .handleClose])
  | .transportErr m =>
    (.error (.transportError m), [.call na.1 na.2, .handleClose])

/-- `Env.__init__(spec, container, chrome_host, game_host)`: validate the
option combination, then build and issue the create call. -/
def envInit (spec : JVal) (container chrome_host game_host : Option JVal)
    (backend : Backend) : Except EnvError EnvState × List Event :=
  if (chrome_host.isNone != game_host.isNone) then
    (.error (.valueError "must set both chrome_host and game_host"), [])
  else if container.isSome && chrome_host.isSome then
    (.error (.valueError "cannot mix chrome_host and container options"), [])
  else
    createAttempt spec container chrome_host game_host backend

/-- `Env.reset()`: one `Reset` call tagged with the environment's UID; the
call's result is discarded (the method returns Python `None`). -/
def envReset (e : EnvState) (backend : Backend) :
    Except EnvError JVal × List Event :=
  match backend "Reset" [("UID", e.uid)] with
  | .ok _ => (.ok .null, [.call "Reset" [("UID", e.uid)]])
  | .backendErr m =>
    (.error (.backendError m), [.call "Reset" [("UID", e.uid)]])
  | .transportErr m =>
    (.error (.transportError m), [.call "Reset" [("UID", e.uid)]])

/-- `Env.close()`: one `CloseEnv` call tagged with the environment's UID,
then — in a `finally` block, so on success and failure alike —
`Handle.close()`. -/
def envClose (e : EnvState) (backend : Backend) :
    Except EnvError JVal × List Event :=
  match backend "CloseEnv" [("UID", e.uid)] with
  | .ok _ =>
    (.ok .null, [.call "CloseEnv" [("UID", e.uid)], .handleClose])
  | .backendErr m =>
    (.error (.backendError m),
      [.call "CloseEnv" [("UID", e.uid)], .handleClose])
  | .transportErr m =>
    (.error (.transportError m),
      [.call "CloseEnv" [("UID", e.uid)], .handleClose])

/-- The trace of calling `close` twice in a row on the same `Env` (the
method mutates no local state, so the second call sees the same state). -/
def envCloseTwice (e : EnvState) (backend : Backend) : List Event :=
  (envClose e backend).2 ++ (envClose e backend).2

/-- The calls a trace issued to the handle, in order. -/
def callsOf (t : List Event) : List (String × Args) :=
  t.filterMap fun e =>
    match e with
    | .call n a => some (n, a)
    | .handleClose => none

/-- How many times a trace closed the handle. -/
def closeCount (t : List Event) : Nat :=
  t.countP fun e =>
    match e with
    | .handleClose => true
    | _ => false

/-- A test-double backend that answers every call with `{UID: "42"}`. -/
def bOkUID : Backend := fun _ _ => .ok [("UID", .str "42")]

/-- A test-double backend that fails every call with the backend-reported
message `"unknown spec"`. -/
def bUnknownSpec : Backend := fun _ _ => .backendErr "unknown spec"

/-- A test-double backend whose success payloads lack the `UID` key. -/
def bStatusOnly : Backend := fun _ _ => .ok [("Status", .str "done")]

/-! ## Codec correctness lemmas -/

/-- A decimal digit's character is not the colon terminator. -/
lemma dChar_ne_colon {d : Nat} (h : d < 10) : dChar d ≠ ':' := by
  interval_cases d <;> decide

/-- Decoding a digit's character recovers the digit. -/
lemma charDigit_dChar {d : Nat} (h : d < 10) : charDigit (dChar d) = some d := by
  interval_cases d <;> decide

/-- `decNatGo` consumes an encoded digit block up to its colon, appending
the digits it reads to the accumulator. -/
lemma decNatGo_append (ds : List Nat) (hds : ∀ d ∈ ds, d < 10) :
    ∀ (acc : List Nat) (rest : List Char),
      decNatGo (ds.map dChar ++ ':' :: rest) acc =
        some (Nat.ofDigits 10 (acc ++ ds), rest) := by
  induction ds with
  | nil => intro acc rest; simp [decNatGo]
  | cons d ds ih =>
    intro acc rest
    have hd : d < 10 := hds d (List.mem_cons_self d ds)
    have hds' : ∀ e ∈ ds, e < 10 := fun e he => hds e (List.mem_cons_of_mem _ he)
    simp only [List.map_cons, List.cons_append, decNatGo,
      if_neg (dChar_ne_colon hd), charDigit_dChar hd, List.append_eq,
      ih hds' (acc ++ [d]) rest, List.append_assoc, List.singleton_append,
      List.nil_append]

/-- Decoding the encoding of a natural number yields it back, leaving the
rest of the stream untouched. -/
lemma decNat_encNat (n : Nat) (rest : List Char) :
    decNat (encNat n ++ rest) = some (n, rest) := by
  have hds : ∀ d ∈ Nat.digits 10 n, d < 10 := fun d hd =>
    Nat.digits_lt_base (by norm_num) hd
  have h := decNatGo_append (Nat.digits 10 n) hds [] rest
  simpa [decNat, encNat, Nat.ofDigits_digits] using h

/-- Decoding the encoding of an integer yields it back. -/
lemma decInt_encInt (i : Int) (rest : List Char) :
    decInt (encInt i ++ rest) = some (i, rest) := by
  by_cases h : i < 0
  · simp [encInt, decInt, h, decNat_encNat, abs_of_neg h]
  · simp [encInt, decInt, h, decNat_encNat, abs_of_nonneg (not_lt.mp h)]

/-- Splitting `l.length` characters off `l ++ rest` yields `l` and `rest`. -/
lemma takeN_append (l rest : List Char) :
    takeN l.length (l ++ rest) = some (l, rest) := by
  induction l with
  | nil => simp [takeN]
  | cons c cs ih => simp [takeN, ih]

/-- Splitting a whole stream off itself leaves nothing. -/
lemma takeN_self (l : List Char) : takeN l.length l = some (l, []) := by
  simpa using takeN_append l []

/-- Decoding the encoding of a string yields it back. -/
lemma decStr_encStr (s : String) (rest : List Char) :
    decStr (encStr s ++ rest) = some (s, rest) := by
  have hlen : s.length = s.data.length := rfl
  have hmk : String.mk s.data = s := by cases s; rfl
  simp only [decStr, encStr, List.append_assoc, decNat_encNat, hlen,
    takeN_append, hmk]

/-- Every JSON value has at least one node. -/
lemma one_le_jsize (v : JVal) : 1 ≤ jsize v := by
  cases v <;> simp [jsize]

/-- An encoded natural number is never empty. -/
lemma one_le_encNat_length (n : Nat) : 1 ≤ (encNat n).length := by
  simp [encNat]

mutual

/-- A JSON value's node count is bounded by its encoding's length. -/
theorem jsize_le_encJVal : (v : JVal) → jsize v ≤ (encJVal v).length
  | .str s => by simp [jsize, encJVal]
  | .num i => by simp [jsize, encJVal]
  | .bool true => by simp [jsize, encJVal]
  | .bool false => by simp [jsize, encJVal]
  | .null => by simp [jsize, encJVal]
  | .arr xs => by
    have h := jsizeList_le_encJList xs
    have h2 := one_le_encNat_length xs.length
    simp only [jsize, encJVal, List.length_cons, List.length_append]
    omega
  | .obj kvs => by
    have h := jsizeKVs_le_encJKVs kvs
    have h2 := one_le_encNat_length kvs.length
    simp only [jsize, encJVal, List.length_cons, List.length_append]
    omega

/-- Node count of array elements is bounded by their encoding's length. -/
theorem jsizeList_le_encJList : (xs : List JVal) →
    jsizeList xs ≤ (encJList xs).length
  | [] => by simp [jsizeList, encJList]
  | v :: vs => by
    have h1 := jsize_le_encJVal v
    have h2 := jsizeList_le_encJList vs
    simp only [jsizeList, encJList, List.length_append]
    omega

/-- Node count of payload values is bounded by their encoding's length. -/
theorem jsizeKVs_le_encJKVs : (kvs : List (String × JVal)) →
    jsizeKVs kvs ≤ (encJKVs kvs).length
  | [] => by simp [jsizeKVs, encJKVs]
  | (k, v) :: kvs => by
    have h1 := jsize_le_encJVal v
    have h2 := jsizeKVs_le_encJKVs kvs
    simp only [jsizeKVs, encJKVs, List.length_append]
    omega

end

/-- An array element's node count is bounded by the array's total. -/
lemma jsize_mem_list {u : JVal} : ∀ {xs : List JVal}, u ∈ xs →
    jsize u ≤ jsizeList xs := by
  intro xs
  induction xs with
  | nil => intro h; cases h
  | cons v vs ih =>
    intro h
    rcases List.mem_cons.mp h with rfl | h'
    · simp only [jsizeList]; omega
    · have := ih h'
      simp only [jsizeList]; omega

/-- A payload value's node count is bounded by the payload's total. -/
lemma jsize_mem_kvs {kv : String × JVal} : ∀ {kvs : List (String × JVal)},
    kv ∈ kvs → jsize kv.2 ≤ jsizeKVs kvs := by
  intro kvs
  induction kvs with
  | nil => intro h; cases h
  | cons p ps ih =>
    intro h
    obtain ⟨k, v⟩ := p
    rcases List.mem_cons.mp h with rfl | h'
    · simp only [jsizeKVs]; omega
    · have := ih h'
      simp only [jsizeKVs]; omega

/-- Given a correct value decoder at some fuel, decoding `xs.length`
values from the encoding of `xs` yields `xs` back. -/
lemma decList_encJList (fuel : Nat)
    (IH : ∀ (v : JVal) (rest : List Char), jsize v ≤ fuel →
      decVal fuel (encJVal v ++ rest) = some (v, rest)) :
    ∀ (xs : List JVal) (rest : List Char), (∀ v ∈ xs, jsize v ≤ fuel) →
      decList fuel xs.length (encJList xs ++ rest) = some (xs, rest) := by
  intro xs
  induction xs with
  | nil => intro rest h; simp [encJList, decList]
  | cons v vs ih =>
    intro rest h
    have hv : jsize v ≤ fuel := h v (List.mem_cons_self v vs)
    have hvs : ∀ u ∈ vs, jsize u ≤ fuel := fun u hu =>
      h u (List.mem_cons_of_mem _ hu)
    simp only [List.length_cons, encJList, List.append_assoc, decList,
      IH v (encJList vs ++ rest) hv, ih rest hvs]

/-- Given a correct value decoder at some fuel, decoding `kvs.length`
fields from the encoding of `kvs` yields `kvs` back. -/
lemma decKVs_encJKVs (fuel : Nat)
    (IH : ∀ (v : JVal) (rest : List Char), jsize v ≤ fuel →
      decVal fuel (encJVal v ++ rest) = some (v, rest)) :
    ∀ (kvs : List (String × JVal)) (rest : List Char),
      (∀ kv ∈ kvs, jsize kv.2 ≤ fuel) →
      decKVs fuel kvs.length (encJKVs kvs ++ rest) = some (kvs, rest) := by
  intro kvs
  induction kvs with
  | nil => intro rest h; simp [encJKVs, decKVs]
  | cons p ps ih =>
    intro rest h
    obtain ⟨k, v⟩ := p
    have hv : jsize v ≤ fuel := h (k, v) (List.mem_cons_self _ ps)
    have hps : ∀ kv ∈ ps, jsize kv.2 ≤ fuel := fun kv hkv =>
      h kv (List.mem_cons_of_mem _ hkv)
    simp only [List.length_cons, encJKVs, List.append_assoc, decKVs,
      decStr_encStr k (encJVal v ++ (encJKVs ps ++ rest)),
      IH v (encJKVs ps ++ rest) hv, ih rest hps]

/-- Decoding the encoding of a JSON value yields it back, at any fuel at
least its node count. -/
theorem decVal_encJVal : ∀ (fuel : Nat) (v : JVal) (rest : List Char),
    jsize v ≤ fuel → decVal fuel (encJVal v ++ rest) = some (v, rest) := by
  intro fuel
  induction fuel with
  | zero =>
    intro v rest h
    have := one_le_jsize v
    omega
  | succ fuel ih =>
    intro v rest h
    match v with
    | .str s => simp [encJVal, decVal, decStr_encStr]
    | .num i => simp [encJVal, decVal, decInt_encInt]
    | .bool true => simp [encJVal, decVal]
    | .bool false => simp [encJVal, decVal]
    | .null => simp [encJVal, decVal]
    | .arr xs =>
      have hxs : ∀ u ∈ xs, jsize u ≤ fuel := by
        intro u hu
        have h1 := jsize_mem_list hu
        simp only [jsize] at h
        omega
      simp only [encJVal, List.cons_append, List.append_assoc, decVal,
        decNat_encNat, decList_encJList fuel ih xs rest hxs]
    | .obj kvs =>
      have hkvs : ∀ kv ∈ kvs, jsize kv.2 ≤ fuel := by
        intro kv hkv
        have h1 := jsize_mem_kvs hkv
        simp only [jsize] at h
        omega
      simp only [encJVal, List.cons_append, List.append_assoc, decVal,
        decNat_encNat, decKVs_encJKVs fuel ih kvs rest hkvs]

/-! ## Lemmas about the facade -/

/-- If `envInit`'s trace contains a call, both validation checks passed and
the call is the one `initCall` determines. -/
lemma call_mem_envInit {spec : JVal} {container chrome_host game_host : Option JVal}
    {b : Backend} {n : String} {a : Args}
    (hcall : Event.call n a ∈ (envInit spec container chrome_host game_host b).2) :
    (chrome_host.isNone != game_host.isNone) = false ∧
    (container.isSome && chrome_host.isSome) = false ∧
    n = (initCall spec container chrome_host game_host).1 ∧
    a = (initCall spec container chrome_host game_host).2 := by
  by_cases h1 : (chrome_host.isNone != game_host.isNone) = true
  · simp [envInit, h1] at hcall
  · rw [Bool.not_eq_true] at h1
    by_cases h2 : (container.isSome && chrome_host.isSome) = true
    · simp [envInit, h1, h2] at hcall
    · rw [Bool.not_eq_true] at h2
      refine ⟨h1, h2, ?_⟩
      rcases hb : b (initCall spec container chrome_host game_host).1
          (initCall spec container chrome_host game_host).2 with r | m | m
      · rcases hl : r.lookup "UID" with _ | u <;>
          simpa [envInit, h1, h2, createAttempt, hb, hl] using hcall
      · simpa [envInit, h1, h2, createAttempt, hb] using hcall
      · simpa [envInit, h1, h2, createAttempt, hb] using hcall

/-- C1: if the create call issued by the `Env` constructor fails (the
backend reports an error, or the call cannot complete at transport level),
the handle is closed before the error propagates — the trace is exactly the
call followed by the handle close — and the constructor never yields an
environment state (it raises instead of reaching `Live`). -/
theorem create_failure_closes_handle (spec : JVal)
    (container chrome_host game_host : Option JVal) (b : Backend)
    (n : String) (a : Args) (m : String)
    (hcall : Event.call n a ∈ (envInit spec container chrome_host game_host b).2)
    (hfail : b n a = .backendErr m ∨ b n a = .transportErr m) :
    (envInit spec container chrome_host game_host b).2 =
      [Event.call n a, Event.handleClose] ∧
    ∀ s : EnvState,
      (envInit spec container chrome_host game_host b).1 ≠ Except.ok s := by
  obtain ⟨h1, h2, hn, ha⟩ := call_mem_envInit hcall
  subst hn; subst ha
  rcases hfail with hb | hb <;> simp [envInit, h1, h2, createAttempt, hb]

/-- Witness for C1 at `Spec = "X"`, no container, no hosts, with a backend
failing every call with `"unknown spec"`. -/
theorem create_failure_closes_handle_witness :
    (envInit (.str "X") none none none bUnknownSpec).2 =
      [Event.call "NewEnv" [("Spec", .str "X")], Event.handleClose] ∧
    ∀ s : EnvState,
      (envInit (.str "X") none none none bUnknownSpec).1 ≠ Except.ok s :=
  create_failure_closes_handle (.str "X") none none none bUnknownSpec
    "NewEnv" [("Spec", .str "X")] "unknown spec"
    (by simp [envInit, createAttempt, initCall, bUnknownSpec])
    (Or.inl rfl)

/-- C2: after `Env.close` returns — whether the `CloseEnv` call succeeded
or raised — the handle's close has been invoked exactly once by that call;
the local release does not depend on the `CloseEnv` call succeeding. -/
theorem close_releases_transport_once (e : EnvState) (b : Backend) :
    closeCount (envClose e b).2 = 1 := by
  rcases hb : b "CloseEnv" [("UID", e.uid)] with r | m | m <;>
    simp [envClose, hb, closeCount]

/-- C3: supplying exactly one of `chrome_host`/`game_host` raises the
configuration `ValueError` synchronously, with an empty trace (no handle
constructed, no transport touched). -/
theorem single_host_config_error (spec : JVal)
    (container chrome_host game_host : Option JVal) (b : Backend)
    (h : chrome_host.isSome ≠ game_host.isSome) :
    envInit spec container chrome_host game_host b =
      (.error (.valueError "must set both chrome_host and game_host"), []) := by
  rcases chrome_host with _ | ch <;> rcases game_host with _ | g <;>
    simp_all [envInit]

/-- Witness for C3 at `chrome_host` set and `game_host` unset. -/
theorem single_host_config_error_witness :
    envInit (.str "X") none (some (.str "h")) none bOkUID =
      (.error (.valueError "must set both chrome_host and game_host"), []) :=
  single_host_config_error (.str "X") none (some (.str "h")) none bOkUID
    (by decide)

/-- C4: supplying both a container descriptor and a `chrome_host` raises a
configuration `ValueError` with an empty trace (no handle constructed,
zero bytes sent to any transport). -/
theorem container_and_host_config_error (spec : JVal)
    (container chrome_host game_host : Option JVal) (b : Backend)
    (hc : container.isSome = true) (hh : chrome_host.isSome = true) :
    (∃ m, (envInit spec container chrome_host game_host b).1 =
      .error (.valueError m)) ∧
    (envInit spec container chrome_host game_host b).2 = [] := by
  rcases container with _ | c
  · simp at hc
  rcases chrome_host with _ | ch
  · simp at hh
  rcases game_host with _ | g
  · exact ⟨⟨"must set both chrome_host and game_host", rfl⟩, rfl⟩
  · exact ⟨⟨"cannot mix chrome_host and container options", rfl⟩, rfl⟩

/-- Witness for C4 at `container = {}` and `chrome_host = "h"`. -/
theorem container_and_host_config_error_witness :
    (∃ m, (envInit (.str "X") (some (.obj [])) (some (.str "h"))
      (some (.str "g")) bOkUID).1 = .error (.valueError m)) ∧
    (envInit (.str "X") (some (.obj [])) (some (.str "h")) (some (.str "g"))
      bOkUID).2 = [] :=
  container_and_host_config_error (.str "X") (some (.obj []))
    (some (.str "h")) (some (.str "g")) bOkUID rfl rfl

/-- C5: for each valid configuration shape, the constructor issues exactly
one create call, with the verb and argument keys of the RPC table, the spec
value passed through unmodified under `Spec`. -/
theorem create_call_table (spec c h g : JVal) (b : Backend) :
    callsOf (envInit spec none none none b).2 =
      [("NewEnv", [("Spec", spec)])] ∧
    callsOf (envInit spec (some c) none none b).2 =
      [("NewEnvContainer", [("Spec", spec), ("Container", c)])] ∧
    callsOf (envInit spec none (some h) (some g) b).2 =
      [("NewEnvChrome", [("Spec", spec), ("Host", h), ("GameHost", g)])] := by
  refine ⟨?_, ?_, ?_⟩
  · rcases hb : b "NewEnv" [("Spec", spec)] with r | m | m
    · rcases hl : r.lookup "UID" with _ | u <;>
        simp [envInit, createAttempt, initCall, hb, hl, callsOf]
    · simp [envInit, createAttempt, initCall, hb, callsOf]
    · simp [envInit, createAttempt, initCall, hb, callsOf]
  · rcases hb : b "NewEnvContainer" [("Spec", spec), ("Container", c)]
        with r | m | m
    · rcases hl : r.lookup "UID" with _ | u <;>
        simp [envInit, createAttempt, initCall, hb, hl, callsOf]
    · simp [envInit, createAttempt, initCall, hb, callsOf]
    · simp [envInit, createAttempt, initCall, hb, callsOf]
  · rcases hb : b "NewEnvChrome"
        [("Spec", spec), ("Host", h), ("GameHost", g)] with r | m | m
    · rcases hl : r.lookup "UID" with _ | u <;>
        simp [envInit, createAttempt, initCall, optVal, hb, hl, callsOf]
    · simp [envInit, createAttempt, initCall, optVal, hb, callsOf]
    · simp [envInit, createAttempt, initCall, optVal, hb, callsOf]

/-- C6: when the backend answers the issued create call with a success
payload containing a `UID`, the constructor returns an environment bearing
exactly that UID and the trace is the single call — the handle is kept
open (the `finally` block does not close it on the success path). -/
theorem create_success_reports_uid (spec : JVal)
    (container chrome_host game_host : Option JVal) (b : Backend)
    (n : String) (a : Args) (r : Args) (u : JVal)
    (hcall : Event.call n a ∈ (envInit spec container chrome_host game_host b).2)
    (hok : b n a = .ok r) (huid : r.lookup "UID" = some u) :
    envInit spec container chrome_host game_host b =
      (.ok ⟨u⟩, [Event.call n a]) := by
  obtain ⟨h1, h2, hn, ha⟩ := call_mem_envInit hcall
  subst hn; subst ha
  simp [envInit, h1, h2, createAttempt, hok, huid]

/-- Witness for C6 at `Spec = "X"` with a backend returning `{UID: "42"}`. -/
theorem create_success_reports_uid_witness :
    envInit (.str "X") none none none bOkUID =
      (.ok ⟨.str "42"⟩, [Event.call "NewEnv" [("Spec", .str "X")]]) :=
  create_success_reports_uid (.str "X") none none none bOkUID
    "NewEnv" [("Spec", .str "X")] [("UID", .str "42")] (.str "42")
    (by simp [envInit, createAttempt, initCall, bOkUID]) rfl rfl

/-- C8: `Env.close` performs no local lifecycle-state check, so a second
`close` on the same environment issues another `CloseEnv` call and another
handle close: the double-close trace holds exactly two `CloseEnv` calls and
two handle closes. -/
theorem double_close_not_guarded (e : EnvState) (b : Backend) :
    callsOf (envCloseTwice e b) =
      [("CloseEnv", [("UID", e.uid)]), ("CloseEnv", [("UID", e.uid)])] ∧
    closeCount (envCloseTwice e b) = 2 := by
  rcases hb : b "CloseEnv" [("UID", e.uid)] with r | m | m <;>
    simp [envCloseTwice, envClose, hb, callsOf, closeCount]

/-- C10: when the backend answers the issued create call with a success
payload lacking the `UID` key, the constructor raises the local lookup
error (`KeyError`, not a backend error) and the guaranteed-release path
still closes the handle before the error propagates. -/
theorem missing_uid_closes_handle (spec : JVal)
    (container chrome_host game_host : Option JVal) (b : Backend)
    (n : String) (a : Args) (r : Args)
    (hcall : Event.call n a ∈ (envInit spec container chrome_host game_host b).2)
    (hok : b n a = .ok r) (hnouid : r.lookup "UID" = none) :
    envInit spec container chrome_host game_host b =
      (.error (.keyError "UID"), [Event.call n a, Event.handleClose]) := by
  obtain ⟨h1, h2, hn, ha⟩ := call_mem_envInit hcall
  subst hn; subst ha
  simp [envInit, h1, h2, createAttempt, hok, hnouid]

/-- Witness for C10 at `Spec = "X"` with a backend returning
`{Status: "done"}` (no `UID`). -/
theorem missing_uid_closes_handle_witness :
    envInit (.str "X") none none none bStatusOnly =
      (.error (.keyError "UID"),
        [Event.call "NewEnv" [("Spec", .str "X")], Event.handleClose]) :=
  missing_uid_closes_handle (.str "X") none none none bStatusOnly
    "NewEnv" [("Spec", .str "X")] [("Status", .str "done")]
    (by simp [envInit, createAttempt, initCall, bStatusOnly, List.lookup]) rfl rfl

/-- C7 (counterexample): `Env.reset` does not return the result of the
`Reset` call.  With a backend answering `{Status: "done"}`, the method
returns Python `None` (null), not the result mapping. -/
theorem reset_discards_result_counterexample :
    (envReset ⟨.str "7"⟩ bStatusOnly).1 = .ok .null ∧
    (envReset ⟨.str "7"⟩ bStatusOnly).1 ≠
      .ok (.obj [("Status", .str "done")]) := by
  constructor
  · rfl
  · simp [envReset, bStatusOnly]

/-- C7 (amended): `Env.reset` issues exactly one call, with verb `Reset`
and arguments exactly `{UID: uid}`; it never inspects the call's result,
discarding it and returning `None` on success, while backend and transport
failures propagate unchanged. -/
theorem reset_call_shape (e : EnvState) (b : Backend) :
    callsOf (envReset e b).2 = [("Reset", [("UID", e.uid)])] ∧
    (∀ r, b "Reset" [("UID", e.uid)] = .ok r →
      (envReset e b).1 = .ok .null) ∧
    (∀ m, b "Reset" [("UID", e.uid)] = .backendErr m →
      (envReset e b).1 = .error (.backendError m)) ∧
    (∀ m, b "Reset" [("UID", e.uid)] = .transportErr m →
      (envReset e b).1 = .error (.transportError m)) := by
  refine ⟨?_, ?_, ?_, ?_⟩
  · rcases hb : b "Reset" [("UID", e.uid)] with r | m | m <;>
      simp [envReset, hb, callsOf]
  · intro r hb; simp [envReset, hb]
  · intro m hb; simp [envReset, hb]
  · intro m hb; simp [envReset, hb]

/-- Witness for the amended C7, at UID `"7"` with a backend answering
`{Status: "done"}`. -/
theorem reset_call_shape_witness :
    (envReset ⟨.str "7"⟩ bStatusOnly).1 = .ok .null :=
  (reset_call_shape ⟨.str "7"⟩ bStatusOnly).2.1 [("Status", .str "done")] rfl

/-- C9: for every Call — a verb name from the enumerated set plus an
argument mapping of string keys to JSON-representable values — decoding
the bytes produced by the codec's encoding reconstructs the same name and
argument mapping: decode after encode is the identity on the Call domain. -/
theorem codec_round_trip (c : Call) (hname : c.name ∈ verbs) :
    decodeCall (encodeCall c) = some c := by
  obtain ⟨name, args⟩ := c
  have hkv : ∀ kv ∈ args, jsize kv.2 ≤ (encJKVs args).length := fun kv hm =>
    le_trans (jsize_mem_kvs hm) (jsizeKVs_le_encJKVs args)
  have hdec := decKVs_encJKVs ((encJKVs args).length)
    (fun v rest hv => decVal_encJVal _ v rest hv) args [] hkv
  rw [List.append_nil] at hdec
  simp only [encodeCall, decodeCall, List.append_assoc, decNat_encNat,
    takeN_self, decStr_encStr, hdec, List.isEmpty_nil, Bool.and_self,
    if_true]

/-- Witness for C9 at the concrete Call `Reset {UID: "42"}`. -/
theorem codec_round_trip_witness :
    decodeCall (encodeCall ⟨"Reset", [("UID", .str "42")]⟩) =
      some ⟨"Reset", [("UID", .str "42")]⟩ :=
  codec_round_trip ⟨"Reset", [("UID", .str "42")]⟩ (by decide)

end Muniverse
